import Mathlib

/-!
Verification of the QC normalization pipeline (`dry.py`) and the plate/well
report generator (`qc_gct2pw.py`).

Modelling conventions:
* IEEE floats are modelled as rationals (`ℚ`); a NaN ("missing") cell is
  `none : Option ℚ`, a defined cell `some v`.
* A pandas dataframe is a `LabeledFrame`: a row-major grid of optional
  rationals together with its row index (probe identifiers) and its column
  index (sample identifiers).
* `numpy`/pandas reductions that skip NaN (`median`, `std`, `mean`, `max`
  with `skipna=True`) act on the list of defined values of a row/column;
  reductions that propagate NaN (python's builtin `sum`) are modelled with
  NaN-propagating folds over `Option ℚ`.
* Comparisons against a standard deviation (`sqrt` of a variance) are
  represented by decidable rational predicates; bridging lemmas
  (`sqrtLt_iff`, `ltMeanPlusStd_iff`) prove them equivalent to the real
  `Real.sqrt` comparisons the floating-point code performs, so every
  pipeline function stays executable.
-/

/-! ## Definitions: the embedding of `dry.py` and `qc_gct2pw.py` -/

/-- The list of defined (non-missing) values of a row or column. -/
def definedVals (xs : List (Option ℚ)) : List ℚ := xs.filterMap id

/-- Arithmetic mean (`np.mean` / the mean used inside `np.std`); `0` on the
empty list (that case is never hit by the claims). -/
def qmean (xs : List ℚ) : ℚ := xs.sum / xs.length

/-- Population variance, i.e. the square of `np.std` (numpy default
`ddof=0`): mean of squared deviations from the mean. -/
def popVar (xs : List ℚ) : ℚ :=
  (xs.map (fun x => (x - qmean xs) ^ 2)).sum / xs.length

/-- Sample variance, i.e. the square of `pandas .std` (pandas default
`ddof=1`): sum of squared deviations divided by `n - 1`; `none` models the
NaN pandas returns when fewer than two values are defined. -/
def sampleVar (xs : List ℚ) : Option ℚ :=
  if xs.length ≤ 1 then none
  else some ((xs.map (fun x => (x - qmean xs) ^ 2)).sum / ((xs.length : ℚ) - 1))

/-- Insertion step for sorting rationals (used by the median). -/
def insertQ (x : ℚ) : List ℚ → List ℚ
  | [] => [x]
  | y :: ys => if x ≤ y then x :: y :: ys else y :: insertQ x ys

/-- Insertion sort on rationals. -/
def sortQ (xs : List ℚ) : List ℚ := xs.foldr insertQ []

/-- Median of a list of rationals (`pandas .median`, skipna semantics are
handled by the caller passing only defined values): `none` on the empty
list, middle element for odd length, average of the two middle elements for
even length. -/
def medianOpt (xs : List ℚ) : Option ℚ :=
  let s := sortQ xs
  let n := s.length
  if n = 0 then none
  else if n % 2 = 1 then some (s.getD (n / 2) 0)
  else some ((s.getD (n / 2 - 1) 0 + s.getD (n / 2) 0) / 2)

/-- A pandas dataframe: row identifiers (the index), column identifiers
(the columns), and the row-major numeric grid. -/
structure LabeledFrame where
  rowIds : List String
  colIds : List String
  data : List (List (Option ℚ))
deriving DecidableEq

/-- Number of columns of a bare grid (`df.shape[1]` once the frame has been
reduced to its values): length of the first row. -/
def ncols (df : List (List (Option ℚ))) : ℕ := (df.head?.map List.length).getD 0

/-- Column `j` of a bare grid, one entry per row (`df.loc[:, j]`). -/
def col (df : List (List (Option ℚ))) (j : ℕ) : List (Option ℚ) :=
  df.map (fun r => r.getD j none)

/-- Boolean-mask selection along a list (`df.loc[:, mask]` /
`array[:, mask]` applied to one row): keep the entries whose mask bit is
`true`. -/
def selectByMask (mask : List Bool) (xs : List α) : List α :=
  (mask.zip xs).filterMap (fun p => if p.1 then some p.2 else none)

/-- `allowed_assay_types` from `determine_assay_type` (dry.py line 16). -/
def allowed_assay_types : List String := ["PR1", "GR1", "DR1"]

/-- `determine_assay_type` (dry.py lines 7-25): return the assay-type string
unchanged if it is recognized, otherwise raise (modelled as `Except.error`
carrying the message of the raised `Exception`). -/
def determine_assay_type (prov_code : String) : Except String String :=
  if prov_code ∈ allowed_assay_types then Except.ok prov_code
  else Except.error
    ("The first entry of the provenance code should be the assay type. " ++
     "Assay type not recognized. assay_type: " ++ prov_code)

/-- `update_prov_code` (dry.py lines 28-39): `np.append` of one new entry to
the end of the existing provenance code; `np.append` always allocates a new
array, so this is a pure append. -/
def update_prov_code (new_entry : String) (existing_prov_code : List String) :
    List String :=
  existing_prov_code ++ [new_entry]

/-- NaN-propagating addition on optional rationals: adding a NaN (missing)
float to anything yields NaN. -/
def nanAdd : Option ℚ → Option ℚ → Option ℚ
  | some a, some b => some (a + b)
  | _, _ => none

/-- Python's builtin `sum` over a float series, which starts from `0` and
propagates NaN through every addition (it does not skip missing values). -/
def nanSum (xs : List (Option ℚ)) : Option ℚ := xs.foldl nanAdd (some 0)

/-- `function_to_optimize` (dry.py lines 172-184):
`sum(np.square((offset + values) - medians))`.  The elementwise
`(offset + values) - medians` and `np.square` turn a missing value or median
into NaN, and the builtin `sum` propagates it, so the result is NaN
(`none`) as soon as any aligned entry is missing. -/
def function_to_optimize (offset : ℚ) (values medians : List (Option ℚ)) :
    Option ℚ :=
  nanSum ((values.zip medians).map (fun p =>
    p.1.bind (fun v => p.2.map (fun m => (offset + v - m) ^ 2))))

/-- Modelled from the spec's words (§4.3), for comparison with
`function_to_optimize`: the objective as the sum of squared deviations taken
only over probes whose entries are defined, missing entries contributing
nothing. -/
def objective_spec (offset : ℚ) (values medians : List (Option ℚ)) : ℚ :=
  ((values.zip medians).filterMap (fun p =>
    p.1.bind (fun v => p.2.map (fun m => (offset + v - m) ^ 2)))).sum

/-- Decides `Real.sqrt v < c` for `0 ≤ v` (see `sqrtLt_iff`); models the
comparison `probe_sds < probe_sd_cutoff` of a defined standard deviation
against a cutoff. -/
def sqrtLt (v c : ℚ) : Bool := decide (0 < c) && decide (v < c * c)

/-- Decides `d < m + c * Real.sqrt v` for `0 ≤ v` (see `ltMeanPlusStd_iff`);
models the comparison `distances < mean + std * multiplier` of
`remove_sample_outliers`. -/
def ltMeanPlusStd (d m v c : ℚ) : Bool :=
  if 0 ≤ c then decide (d - m < 0) || decide ((d - m) ^ 2 < c ^ 2 * v)
  else decide (d - m < 0) && decide (c ^ 2 * v < (d - m) ^ 2)

/-- The column indices a boolean mask keeps. -/
def keptIdx (mask : List Bool) : List ℕ :=
  (List.range mask.length).filter (fun j => mask.getD j false)

/-- Per-column keep mask of `filter_samples`: for each column,
`num_nans / num_probes < sample_pct_cutoff`, where `num_nans` is the
column's NaN count (`df.isnull().sum()`) and `num_probes = df.shape[0]`
is the row count (dry.py lines 64-74). -/
def sampleMask (f : LabeledFrame) (sample_pct_cutoff : ℚ) : List Bool :=
  (List.range f.colIds.length).map (fun j =>
    decide (((col f.data j).count none : ℚ) / (f.data.length : ℚ) <
      sample_pct_cutoff))

/-- `filter_samples` (dry.py lines 54-75): keep the columns whose NaN
fraction is strictly below the cutoff (`df.loc[:, pct_nans < cutoff]`), then
return `out_df.values` — the bare numeric grid, with the row and column
identifiers of the dataframe stripped (dry.py line 75). -/
def filter_samples (f : LabeledFrame) (sample_pct_cutoff : ℚ) :
    List (List (Option ℚ)) :=
  f.data.map (selectByMask (sampleMask f sample_pct_cutoff))

/-- Per-row keep predicate of `filter_probes` (dry.py lines 90-105): the
row's NaN fraction (`num_nans / num_samples`, `num_samples = df.shape[1]`)
is strictly below `probe_pct_cutoff` AND the row's standard deviation
(`df.std(axis=1)`: pandas sample standard deviation over the defined
values, NaN when fewer than two are defined) is strictly below
`probe_sd_cutoff`; the NaN standard deviation comparison is false, so such
rows are dropped. -/
def probeKeep (num_samples : ℕ) (probe_pct_cutoff probe_sd_cutoff : ℚ)
    (row : List (Option ℚ)) : Bool :=
  (decide ((row.count none : ℚ) / (num_samples : ℚ) < probe_pct_cutoff)) &&
    (match sampleVar (definedVals row) with
     | none => false
     | some v => sqrtLt v probe_sd_cutoff)

/-- The row mask `probes_to_keep` of `filter_probes` (dry.py line 104). -/
def probeMask (f : LabeledFrame) (probe_pct_cutoff probe_sd_cutoff : ℚ) :
    List Bool :=
  f.data.map (probeKeep f.colIds.length probe_pct_cutoff probe_sd_cutoff)

/-- `filter_probes` (dry.py lines 78-107): keep the rows passing
`probeKeep`; `df.loc[probes_to_keep, :]` keeps the dataframe with its row
identifiers filtered by the same mask and its columns untouched. -/
def filter_probes (f : LabeledFrame) (probe_pct_cutoff probe_sd_cutoff : ℚ) :
    LabeledFrame :=
  ⟨selectByMask (probeMask f probe_pct_cutoff probe_sd_cutoff) f.rowIds,
   f.colIds,
   selectByMask (probeMask f probe_pct_cutoff probe_sd_cutoff) f.data⟩

/-- The per-sample mask `distances < cutoff` of `remove_sample_outliers`,
with `cutoff = np.mean(distances) + np.std(distances) * multiplier`
(dry.py line 198; `np.std` is the population standard deviation,
`ddof = 0`).  The comparison of a distance against
`mean + multiplier * sqrt(popVar)` is decided by `ltMeanPlusStd`
(see `ltMeanPlusStd_iff`). -/
def outlierMask (distances : List ℚ) (sd_sample_outlier_cutoff : ℚ) :
    List Bool :=
  distances.map (fun d =>
    ltMeanPlusStd d (qmean distances) (popVar distances)
      sd_sample_outlier_cutoff)

/-- `remove_sample_outliers` (dry.py lines 187-201): return
`df[:, distances < cutoff]`, the columns whose distance is strictly below
the cutoff. -/
def remove_sample_outliers (df : List (List (Option ℚ)))
    (distances : List ℚ) (sd_sample_outlier_cutoff : ℚ) :
    List (List (Option ℚ)) :=
  df.map (selectByMask (outlierMask distances sd_sample_outlier_cutoff))

/-- The result record of `scipy.optimize.minimize_scalar`: the minimizing
argument `x`, the objective value at it (`.fun`, NaN-able), and the
convergence flag `success`. -/
structure OptimizeResult where
  x : ℚ
  f : Option ℚ
  success : Bool
deriving DecidableEq

/-- The type of the external bounded scalar minimizer
(`scipy.optimize.minimize_scalar(..., method="bounded", bounds=...)`), a
collaborator outside this repository: it receives the objective and the
bounds and returns an `OptimizeResult`. -/
def Minimizer : Type :=
  (ℚ → Option ℚ) → ℚ × ℚ → OptimizeResult

/-- `probe_medians` (dry.py line 133): `df.median(axis=1)`, the median of
each row's defined values (NaN for an all-missing row). -/
def probe_medians (df : List (List (Option ℚ))) : List (Option ℚ) :=
  df.map (fun row => medianOpt (definedVals row))

/-- The per-sample optimization results of dry.py lines 144-157: for each
sample index, the minimizer applied to that sample's objective
`function_to_optimize(., sample_vals, probe_medians)`. -/
def sample_results (minimize_scalar : Minimizer)
    (df : List (List (Option ℚ))) (offset_bounds : ℚ × ℚ) :
    List OptimizeResult :=
  (List.range (ncols df)).map (fun sample_ind =>
    minimize_scalar
      (fun offset => function_to_optimize offset (col df sample_ind)
        (probe_medians df))
      offset_bounds)

/-- `unoptimized_distances` (dry.py line 148): the objective at offset 0 for
each sample; the source computes this array and then neither uses nor
returns it. -/
def unoptimized_distances (df : List (List (Option ℚ))) : List (Option ℚ) :=
  (List.range (ncols df)).map (fun j =>
    function_to_optimize 0 (col df j) (probe_medians df))

/-- `optimize_sample_balance` (dry.py lines 121-169): run the bounded
minimization per sample, then apply each sample's optimal offset
(`optimized_offsets = results.x`) to its whole column
(`df.add(optimized_offsets)`, NaN cells stay NaN) and return the PAIR of
the offset matrix and the optimized distances (`results.fun`).  The
success flags only feed the print on lines 160-162; they are not part of
the return value, and no failure aborts the function. -/
def optimize_sample_balance (minimize_scalar : Minimizer)
    (df : List (List (Option ℚ))) (offset_bounds : ℚ × ℚ) :
    List (List (Option ℚ)) × List (Option ℚ) :=
  (df.map (fun row =>
      (row.zip ((sample_results minimize_scalar df offset_bounds).map
        OptimizeResult.x)).map (fun p => p.1.map (fun v => v + p.2))),
   (sample_results minimize_scalar df offset_bounds).map OptimizeResult.f)

/-- The sample indices whose optimization reported no convergence
(`~success_bools`, dry.py lines 157-162): the source prints them and
continues; they are not part of the return value. -/
def non_converged_samples (minimize_scalar : Minimizer)
    (df : List (List (Option ℚ))) (offset_bounds : ℚ × ℚ) : List ℕ :=
  (List.range (ncols df)).filter (fun j =>
    !((sample_results minimize_scalar df offset_bounds).getD j
        ⟨0, none, true⟩).success)

/-- A minimizer that reports convergence (used as a concrete instance of
the external scipy collaborator). -/
def minimizerConverged : Minimizer := fun g _ => ⟨0, g 0, true⟩

/-- A minimizer identical to `minimizerConverged` except that it reports
non-convergence. -/
def minimizerDiverged : Minimizer := fun g _ => ⟨0, g 0, false⟩

/-- A column of the output plate/well table: either a metadata string
column or a numeric metric column. -/
inductive PWColumn where
  | strCol : List String → PWColumn
  | numCol : List (Option ℚ) → PWColumn
deriving DecidableEq

/-- The length of a plate/well output column. -/
def pwLength : PWColumn → ℕ
  | .strCol l => l.length
  | .numCol l => l.length

/-- Maximum of a list of rationals, `none` on the empty list (`pandas .max`
with skipna acting on the defined values). -/
def maxOpt (xs : List ℚ) : Option ℚ :=
  xs.foldl (fun acc x =>
    match acc with
    | none => some x
    | some a => some (max a x)) none

/-- Row-maximum normalization (qc_gct2pw.py lines 68-70):
`gct.data_df.div(gct.data_df.max(axis='columns'), axis='rows')` — each
entry divided by its row's maximum over defined values; NaN entries stay
NaN, and an all-missing row (NaN maximum) becomes all NaN. -/
def divideByRowMax (row : List (Option ℚ)) : List (Option ℚ) :=
  match maxOpt (definedVals row) with
  | none => row.map (fun _ => none)
  | some mx => row.map (Option.map (fun v => v / mx))

/-- Median of column `j` of the divided data, skipping NaN
(`divided_data_df.median(axis=0)`, qc_gct2pw.py line 73). -/
def medianCol (df : List (List (Option ℚ))) (j : ℕ) : Option ℚ :=
  medianOpt (definedVals (col df j))

/-- Mean of column `j`, skipping NaN (`divided_data_df.mean(axis=0)`,
qc_gct2pw.py line 74; computed by the source and then never used). -/
def meanCol (df : List (List (Option ℚ))) (j : ℕ) : Option ℚ :=
  match definedVals (col df j) with
  | [] => none
  | xs => some (qmean xs)

/-- Mean absolute deviation of column `j`, skipping NaN
(`divided_data_df.mad(axis=0)`, qc_gct2pw.py line 75). -/
def madCol (df : List (List (Option ℚ))) (j : ℕ) : Option ℚ :=
  match definedVals (col df j) with
  | [] => none
  | xs => some (qmean (xs.map (fun x => |x - qmean xs|)))

/-- Insertion step for sorting keyword columns by key
(python's `sorted(kwargs.keys())`, lexicographic string order). -/
def insertByKey (p : String × List (Option ℚ)) :
    List (String × List (Option ℚ)) → List (String × List (Option ℚ))
  | [] => [p]
  | q :: qs => if p.1 ≤ q.1 then p :: q :: qs else q :: insertByKey p qs

/-- Sort keyword columns by ascending key. -/
def sortByKey (l : List (String × List (Option ℚ))) :
    List (String × List (Option ℚ)) :=
  l.foldr insertByKey []

/-- `assemble_output_df` (qc_gct2pw.py lines 118-158): the output table is
`plate_name`, then `well_name`, then the keyword metric columns in
alphabetical key order; the assertions that every column has one entry per
well are modelled as the `none` (failure) branch. -/
def assemble_output_df (plate_names well_names : List String)
    (kwargs : List (String × List (Option ℚ))) :
    Option (List (String × PWColumn)) :=
  if plate_names.length = well_names.length
      ∧ ∀ p ∈ kwargs, p.2.length = well_names.length then
    some ([("plate_name", PWColumn.strCol plate_names),
           ("well_name", PWColumn.strCol well_names)] ++
      (sortByKey kwargs).map (fun p => (p.1, PWColumn.numCol p.2)))
  else none

/-- The metric-assembly step of `main` (qc_gct2pw.py lines 68-86): divide
each row by its maximum, compute the per-sample medians, means and MADs of
the divided data (means — line 74 — and the standard deviations — line 76
— are computed by the source but never passed on), and call
`assemble_output_df` with ONLY `medium_over_heavy_median` and
`medium_over_heavy_mad` (lines 79-82). -/
def qc_pw_output (data : List (List (Option ℚ)))
    (plate_names well_names : List String) :
    Option (List (String × PWColumn)) :=
  let divided := data.map divideByRowMax
  let n := ncols data
  let medium_over_heavy_medians := (List.range n).map (medianCol divided)
  let medium_over_heavy_mads := (List.range n).map (madCol divided)
  assemble_output_df plate_names well_names
    [("medium_over_heavy_median", medium_over_heavy_medians),
     ("medium_over_heavy_mad", medium_over_heavy_mads)]

/-- The ordered column headers of the report produced on concrete input. -/
def qc_pw_headers (data : List (List (Option ℚ)))
    (plate_names well_names : List String) : List String :=
  ((qc_pw_output data plate_names well_names).getD []).map Prod.fst

/-! ## Lemmas and claim theorems -/

/-- Claim C7: `determine_assay_type` succeeds on a string if and only if the
string belongs to the fixed three-element set of recognized assay types, and
fails (raises) otherwise; in particular `"PR1"` succeeds and `"XX9"` fails. -/
theorem determine_assay_type_spec :
    (∀ s : String, (∃ a, determine_assay_type s = Except.ok a) ↔
      s ∈ allowed_assay_types)
    ∧ allowed_assay_types.length = 3
    ∧ determine_assay_type "PR1" = Except.ok "PR1"
    ∧ (∃ e, determine_assay_type "XX9" = Except.error e) := by
  refine ⟨fun s => ?_, rfl, rfl, ⟨_, rfl⟩⟩
  constructor
  · rintro ⟨a, ha⟩
    by_contra hmem
    simp [determine_assay_type, hmem] at ha
  · intro hmem
    exact ⟨s, by simp [determine_assay_type, hmem]⟩

/-- Claim C8: `update_prov_code` returns a new sequence equal to the input
with the new tag as its last element (input prefix unchanged, length grows by
one); in particular appending `"L2X"` to `["PR1"]` yields `["PR1", "L2X"]`.
Sequences are immutable values here, so the caller's input is left
unmodified by construction. -/
theorem update_prov_code_spec :
    (∀ (t : String) (xs : List String),
      (update_prov_code t xs).dropLast = xs
      ∧ (update_prov_code t xs).getLast? = some t
      ∧ (update_prov_code t xs).length = xs.length + 1)
    ∧ update_prov_code "L2X" ["PR1"] = ["PR1", "L2X"] := by
  refine ⟨fun t xs => ⟨?_, ?_, ?_⟩, rfl⟩
  · simp [update_prov_code]
  · simp [update_prov_code]
  · simp [update_prov_code]

lemma foldl_nanAdd_none (xs : List (Option ℚ)) : xs.foldl nanAdd none = none := by
  induction xs with
  | nil => rfl
  | cons x xs ih => cases x <;> simpa [nanAdd] using ih

lemma foldl_nanAdd_some (xs : List (Option ℚ)) (hxs : ∀ x ∈ xs, x ≠ none) :
    ∀ a : ℚ, xs.foldl nanAdd (some a) = some (a + (xs.filterMap id).sum) := by
  induction xs with
  | nil => intro a; simp [nanAdd]
  | cons x xs ih =>
    intro a
    cases x with
    | none => exact absurd rfl (hxs none (by simp))
    | some v =>
      have := ih (fun y hy => hxs y (List.mem_cons_of_mem _ hy)) (a + v)
      simp only [List.foldl_cons, nanAdd, List.filterMap_cons, id] at this ⊢
      rw [this]
      simp [add_assoc]

lemma foldl_nanAdd_mem_none (xs : List (Option ℚ)) (h : none ∈ xs) :
    ∀ a : Option ℚ, xs.foldl nanAdd a = none := by
  induction xs with
  | nil => simp at h
  | cons x xs ih =>
    intro a
    rcases List.mem_cons.mp h with h1 | h2
    · subst h1
      simp only [List.foldl_cons]
      have hnone : nanAdd a none = none := by cases a <;> rfl
      rw [hnone]
      exact foldl_nanAdd_none xs
    · simp only [List.foldl_cons]
      exact ih h2 _

lemma nanSum_of_mem_none (xs : List (Option ℚ)) (h : none ∈ xs) :
    nanSum xs = none :=
  foldl_nanAdd_mem_none xs h _

/-- Claim C1 counterexample: at offset `0`, values `[1, NaN]` and medians
`[0, 0]`, the code's objective is NaN (`none`) although one probe value is
defined, so it is neither finite nor equal to the sum over the defined
probes (which is `1`): missing entries are not excluded but poison the
whole sum. -/
theorem function_to_optimize_not_skipping_missing :
    function_to_optimize 0 [some 1, none] [some 0, some 0] = none
    ∧ objective_spec 0 [some 1, none] [some 0, some 0] = 1
    ∧ function_to_optimize 0 [some 1, none] [some 0, some 0] ≠
        some (objective_spec 0 [some 1, none] [some 0, some 0]) :=
  ⟨by simp [function_to_optimize, nanSum, nanAdd],
   by norm_num [objective_spec, List.filterMap_cons],
   by simp [function_to_optimize, nanSum, nanAdd]⟩

/-- Claim C1 (amended): the objective is the sum of squared deviations over
ALL probes.  When every aligned value and median is defined it equals the
sum `objective_spec` over defined probes; but as soon as any aligned entry
is missing the objective is NaN (`none`), not a finite real. -/
theorem function_to_optimize_total_sum :
    ∀ (offset : ℚ) (values medians : List (Option ℚ)),
      ((∀ p ∈ values.zip medians, p.1 ≠ none ∧ p.2 ≠ none) →
        function_to_optimize offset values medians =
          some (objective_spec offset values medians))
      ∧ ((∃ p ∈ values.zip medians, p.1 = none ∨ p.2 = none) →
        function_to_optimize offset values medians = none) := by
  intro offset values medians
  constructor
  · intro hall
    unfold function_to_optimize objective_spec nanSum
    rw [foldl_nanAdd_some]
    · rw [zero_add, List.filterMap_map]
      rfl
    · intro x hx
      rcases List.mem_map.mp hx with ⟨p, hp, hpx⟩
      obtain ⟨h1, h2⟩ := hall p hp
      obtain ⟨p1, p2⟩ := p
      subst hpx
      cases p1 <;> cases p2 <;> simp_all
  · rintro ⟨p, hp, hcase⟩
    apply nanSum_of_mem_none
    apply List.mem_map.mpr
    refine ⟨p, hp, ?_⟩
    obtain ⟨p1, p2⟩ := p
    cases p1 <;> cases p2 <;> simp_all

/-- Witness for `function_to_optimize_total_sum` at concrete inputs. -/
theorem function_to_optimize_total_sum_witness :
    function_to_optimize 3 [some 1, some 2] [some 4, some 5] =
      some (objective_spec 3 [some 1, some 2] [some 4, some 5])
    ∧ function_to_optimize 0 [none] [some 0] = none :=
  ⟨(function_to_optimize_total_sum 3 [some 1, some 2] [some 4, some 5]).1
      (by decide),
   (function_to_optimize_total_sum 0 [none] [some 0]).2
      ⟨(none, some 0), by simp, Or.inl rfl⟩⟩

lemma sqrtLt_iff (v c : ℚ) (hv : 0 ≤ v) :
    sqrtLt v c = true ↔ Real.sqrt (v : ℝ) < (c : ℝ) := by
  have hv' : (0:ℝ) ≤ (v:ℝ) := by exact_mod_cast hv
  unfold sqrtLt
  simp only [Bool.and_eq_true, decide_eq_true_eq]
  constructor
  · rintro ⟨hc, hlt⟩
    have hc' : (0:ℝ) < (c:ℝ) := by exact_mod_cast hc
    rw [show ((c:ℝ)) = Real.sqrt ((c:ℝ)^2) from (Real.sqrt_sq hc'.le).symm]
    apply Real.sqrt_lt_sqrt hv'
    have : (v:ℝ) < (c:ℝ) * (c:ℝ) := by exact_mod_cast hlt
    nlinarith
  · intro h
    have hc' : (0:ℝ) < (c:ℝ) := lt_of_le_of_lt (Real.sqrt_nonneg _) h
    have hc : 0 < c := by exact_mod_cast hc'
    refine ⟨hc, ?_⟩
    have h2 : (v:ℝ) < (c:ℝ)^2 := (Real.sqrt_lt' hc').mp h
    have : (v:ℝ) < (c:ℝ) * (c:ℝ) := by nlinarith
    exact_mod_cast this

lemma ltMeanPlusStd_iff (d m v c : ℚ) (hv : 0 ≤ v) :
    ltMeanPlusStd d m v c = true ↔
      (d : ℝ) < (m : ℝ) + (c : ℝ) * Real.sqrt (v : ℝ) := by
  have hv' : (0:ℝ) ≤ (v:ℝ) := by exact_mod_cast hv
  set s : ℝ := Real.sqrt (v:ℝ) with hs
  have hs0 : 0 ≤ s := Real.sqrt_nonneg _
  have hs2 : s ^ 2 = (v:ℝ) := Real.sq_sqrt hv'
  have hgoal : ((d : ℝ) < (m : ℝ) + (c : ℝ) * s) ↔
      ((d:ℝ) - (m:ℝ) < (c:ℝ) * s) := by
    constructor <;> intro h <;> linarith
  rw [hgoal]
  unfold ltMeanPlusStd
  by_cases hc : 0 ≤ c
  · have hc' : (0:ℝ) ≤ (c:ℝ) := by exact_mod_cast hc
    simp only [hc, if_true, Bool.or_eq_true, decide_eq_true_eq]
    constructor
    · rintro (h | h)
      · have h' : (d:ℝ) - (m:ℝ) < 0 := by exact_mod_cast h
        have : 0 ≤ (c:ℝ) * s := mul_nonneg hc' hs0
        linarith
      · have h' : ((d:ℝ) - (m:ℝ)) ^ 2 < (c:ℝ) ^ 2 * (v:ℝ) := by exact_mod_cast h
        by_cases ha : (d:ℝ) - (m:ℝ) < 0
        · have : 0 ≤ (c:ℝ) * s := mul_nonneg hc' hs0
          linarith
        · push_neg at ha
          nlinarith [mul_nonneg hc' hs0]
    · intro h
      by_cases ha : (d:ℝ) - (m:ℝ) < 0
      · left; exact_mod_cast ha
      · push_neg at ha
        right
        have h2 : ((d:ℝ) - (m:ℝ)) ^ 2 < (c:ℝ) ^ 2 * (v:ℝ) := by
          nlinarith [mul_nonneg hc' hs0]
        exact_mod_cast h2
  · have hcneg : c < 0 := lt_of_not_ge hc
    have hc' : (c:ℝ) < 0 := by exact_mod_cast hcneg
    have hcs : (c:ℝ) * s ≤ 0 := mul_nonpos_of_nonpos_of_nonneg hc'.le hs0
    simp only [hc, if_false, Bool.and_eq_true, decide_eq_true_eq]
    constructor
    · rintro ⟨h1, h2⟩
      have h1' : (d:ℝ) - (m:ℝ) < 0 := by exact_mod_cast h1
      have h2' : (c:ℝ) ^ 2 * (v:ℝ) < ((d:ℝ) - (m:ℝ)) ^ 2 := by exact_mod_cast h2
      nlinarith
    · intro h
      have h1 : (d:ℝ) - (m:ℝ) < 0 := lt_of_lt_of_le h hcs
      refine ⟨by exact_mod_cast h1, ?_⟩
      have h2 : (c:ℝ) ^ 2 * (v:ℝ) < ((d:ℝ) - (m:ℝ)) ^ 2 := by nlinarith
      exact_mod_cast h2

lemma popVar_nonneg (xs : List ℚ) : 0 ≤ popVar xs := by
  unfold popVar
  apply div_nonneg
  · apply List.sum_nonneg
    intro x hx
    rcases List.mem_map.mp hx with ⟨y, _, rfl⟩
    positivity
  · exact Nat.cast_nonneg _

lemma sampleVar_nonneg (xs : List ℚ) (v : ℚ) (h : sampleVar xs = some v) :
    0 ≤ v := by
  unfold sampleVar at h
  split at h
  · exact absurd h (by simp)
  · rename_i hlen
    have h2 : 2 ≤ xs.length := by omega
    have hden : (0:ℚ) ≤ (xs.length : ℚ) - 1 := by
      have : (2:ℚ) ≤ (xs.length : ℚ) := by exact_mod_cast h2
      linarith
    have hsum : (0:ℚ) ≤ (xs.map (fun x => (x - qmean xs) ^ 2)).sum := by
      apply List.sum_nonneg
      intro x hx
      rcases List.mem_map.mp hx with ⟨y, _, rfl⟩
      positivity
    have := div_nonneg hsum hden
    simp only [Option.some_inj] at h
    rw [← h]
    exact this

lemma selectByMask_length_le (mask : List Bool) (xs : List α) :
    (selectByMask mask xs).length ≤ xs.length := by
  calc (selectByMask mask xs).length ≤ (mask.zip xs).length :=
        List.length_filterMap_le _ _
    _ ≤ xs.length := by rw [List.length_zip]; exact min_le_right _ _

lemma selectByMask_map (mask : List Bool) (f : α → β) :
    ∀ xs : List α,
      selectByMask mask (xs.map f) = (selectByMask mask xs).map f := by
  induction mask with
  | nil => intro xs; rfl
  | cons b mask ih =>
    intro xs
    cases xs with
    | nil => rfl
    | cons x xs =>
      cases b <;> simp [selectByMask, List.filterMap_cons] at ih ⊢ <;>
        exact ih xs

lemma selectByMask_map_self (p : α → Bool) (xs : List α) :
    selectByMask (xs.map p) xs = xs.filter p := by
  induction xs with
  | nil => rfl
  | cons x xs ih =>
    cases hpx : p x <;>
      simp [selectByMask, List.filterMap_cons, List.filter_cons, hpx] at ih ⊢ <;>
      exact ih

lemma selectByMask_replicate_false (n : ℕ) (xs : List α) :
    selectByMask (List.replicate n false) xs = [] := by
  induction n generalizing xs with
  | zero => rfl
  | succ n ih =>
    cases xs with
    | nil => rfl
    | cons x xs =>
      simp only [List.replicate_succ, selectByMask, List.zip_cons_cons,
        List.filterMap_cons, if_neg Bool.false_ne_true]
      exact ih xs

lemma map_getD_range (xs : List α) (d : α) :
    (List.range xs.length).map (fun j => xs.getD j d) = xs := by
  apply List.ext_getElem
  · simp
  · intro i h1 h2
    simp only [List.getElem_map, List.getElem_range]
    exact List.getD_eq_getElem xs d h2

lemma selectByMask_range' (mask : List Bool) :
    ∀ s : ℕ, selectByMask mask (List.range' s mask.length) =
      (List.range' s mask.length).filter (fun j => mask.getD (j - s) false) := by
  induction mask with
  | nil => intro s; rfl
  | cons b mask ih =>
    intro s
    rw [List.length_cons, List.range'_succ]
    have htail : (List.range' (s + 1) mask.length).filter
        (fun j => (b :: mask).getD (j - s) false) =
        (List.range' (s + 1) mask.length).filter
        (fun j => mask.getD (j - (s + 1)) false) := by
      apply List.filter_congr
      intro j hj
      have hs : s + 1 ≤ j := (List.mem_range'_1.mp hj).1
      have hj1 : j - s = (j - (s + 1)) + 1 := by omega
      rw [hj1]
      rfl
    cases b
    · have h1 : selectByMask (false :: mask)
          (s :: List.range' (s + 1) mask.length) =
          selectByMask mask (List.range' (s + 1) mask.length) := by
        simp [selectByMask, List.filterMap_cons]
      have h2 : (s :: List.range' (s + 1) mask.length).filter
          (fun j => ((false : Bool) :: mask).getD (j - s) false) =
          (List.range' (s + 1) mask.length).filter
          (fun j => ((false : Bool) :: mask).getD (j - s) false) := by
        rw [List.filter_cons]
        simp [Nat.sub_self]
      rw [h1, h2, htail]
      exact ih (s + 1)
    · have h1 : selectByMask (true :: mask)
          (s :: List.range' (s + 1) mask.length) =
          s :: selectByMask mask (List.range' (s + 1) mask.length) := by
        simp [selectByMask, List.filterMap_cons]
      have h2 : (s :: List.range' (s + 1) mask.length).filter
          (fun j => ((true : Bool) :: mask).getD (j - s) false) =
          s :: (List.range' (s + 1) mask.length).filter
          (fun j => ((true : Bool) :: mask).getD (j - s) false) := by
        rw [List.filter_cons]
        simp [Nat.sub_self]
      rw [h1, h2, htail]
      exact congrArg (List.cons s) (ih (s + 1))

lemma selectByMask_range (mask : List Bool) :
    selectByMask mask (List.range mask.length) = keptIdx mask := by
  have := selectByMask_range' mask 0
  simpa [keptIdx, List.range_eq_range'] using this

lemma mem_keptIdx (mask : List Bool) (j : ℕ) :
    j ∈ keptIdx mask ↔ j < mask.length ∧ mask.getD j false = true := by
  simp [keptIdx, List.mem_filter, List.mem_range]

lemma selectByMask_eq_keptIdx_map (mask : List Bool) (xs : List α) (d : α)
    (h : xs.length = mask.length) :
    selectByMask mask xs = (keptIdx mask).map (fun j => xs.getD j d) := by
  conv_lhs => rw [← map_getD_range xs d]
  rw [selectByMask_map mask (fun j => xs.getD j d) (List.range xs.length), h,
    selectByMask_range]

lemma getD_map_range {β : Type} (n j : ℕ) (g : ℕ → β) (d : β) (hj : j < n) :
    ((List.range n).map g).getD j d = g j := by
  have hlen : j < ((List.range n).map g).length := by simpa using hj
  rw [List.getD_eq_getElem _ _ hlen]
  simp

/-- Claim C3: `filter_probes` retains a row if and only if the row's missing
fraction (NaN count over column count) is strictly below
`probe_pct_cutoff` AND its standard deviation over the defined values is
defined and strictly below `probe_sd_cutoff`; a row with zero defined
values is always removed (no error is possible: the function is total);
the row count never grows. -/
theorem filter_probes_spec (f : LabeledFrame) (p s : ℚ)
    (row : List (Option ℚ)) :
    (row ∈ (filter_probes f p s).data ↔
      row ∈ f.data ∧
        (((row.count none : ℚ) / (f.colIds.length : ℚ) < p)
          ∧ ∃ v, sampleVar (definedVals row) = some v
              ∧ Real.sqrt (v : ℝ) < (s : ℝ)))
    ∧ (definedVals row = [] → row ∉ (filter_probes f p s).data)
    ∧ (filter_probes f p s).data.length ≤ f.data.length := by
  have hdata : (filter_probes f p s).data =
      f.data.filter (probeKeep f.colIds.length p s) := by
    show selectByMask (probeMask f p s) f.data = _
    exact selectByMask_map_self _ _
  have hkeep : ∀ r : List (Option ℚ),
      probeKeep f.colIds.length p s r = true ↔
        ((r.count none : ℚ) / (f.colIds.length : ℚ) < p
          ∧ ∃ v, sampleVar (definedVals r) = some v
              ∧ Real.sqrt (v : ℝ) < (s : ℝ)) := by
    intro r
    unfold probeKeep
    rw [Bool.and_eq_true, decide_eq_true_eq]
    constructor
    · rintro ⟨h1, h2⟩
      refine ⟨h1, ?_⟩
      cases hv : sampleVar (definedVals r) with
      | none => rw [hv] at h2; exact absurd h2 (by simp)
      | some v =>
        rw [hv] at h2
        exact ⟨v, rfl, (sqrtLt_iff v s (sampleVar_nonneg _ v hv)).mp h2⟩
    · rintro ⟨h1, v, hv, hlt⟩
      refine ⟨h1, ?_⟩
      rw [hv]
      exact (sqrtLt_iff v s (sampleVar_nonneg _ v hv)).mpr hlt
  refine ⟨?_, ?_, ?_⟩
  · rw [hdata, List.mem_filter, hkeep row]
  · intro hdef
    rw [hdata, List.mem_filter]
    rintro ⟨_, hk⟩
    rw [hkeep row] at hk
    obtain ⟨_, v, hv, _⟩ := hk
    rw [hdef] at hv
    exact absurd hv (by simp [sampleVar])
  · rw [hdata]
    exact List.length_filter_le _ _

/-- Witness for `filter_probes_spec`: on a concrete 2x2 frame, the all-missing
row is removed. -/
theorem filter_probes_spec_witness :
    [none, none] ∉ (filter_probes
      ⟨["p1", "p2"], ["s1", "s2"], [[some 1, some 2], [none, none]]⟩
      (1/2) 1).data :=
  (filter_probes_spec
    ⟨["p1", "p2"], ["s1", "s2"], [[some 1, some 2], [none, none]]⟩
    (1/2) 1 [none, none]).2.1 rfl

/-- Claim C6: `filter_samples` retains exactly the columns whose missing
fraction (NaN count over row count) is strictly below the cutoff: the
output is each input row restricted to the kept column indices, a column
index is kept iff its missing fraction is strictly below the cutoff, the
row count is unchanged, and no output row is wider than the column count. -/
theorem filter_samples_spec (f : LabeledFrame) (c : ℚ)
    (hrect : ∀ r ∈ f.data, r.length = f.colIds.length) :
    filter_samples f c = f.data.map (fun r =>
      (keptIdx (sampleMask f c)).map (fun j => r.getD j none))
    ∧ (∀ j, j ∈ keptIdx (sampleMask f c) ↔
        (j < f.colIds.length
          ∧ ((col f.data j).count none : ℚ) / (f.data.length : ℚ) < c))
    ∧ (filter_samples f c).length = f.data.length
    ∧ (∀ r ∈ filter_samples f c, r.length ≤ f.colIds.length) := by
  have hmlen : (sampleMask f c).length = f.colIds.length := by
    simp [sampleMask]
  refine ⟨?_, ?_, ?_, ?_⟩
  · unfold filter_samples
    apply List.map_congr_left
    intro r hr
    exact selectByMask_eq_keptIdx_map _ r none ((hrect r hr).trans hmlen.symm)
  · intro j
    rw [mem_keptIdx, hmlen]
    constructor
    · rintro ⟨hj, hb⟩
      refine ⟨hj, ?_⟩
      unfold sampleMask at hb
      rw [getD_map_range _ _ _ _ hj] at hb
      exact of_decide_eq_true hb
    · rintro ⟨hj, hlt⟩
      refine ⟨hj, ?_⟩
      unfold sampleMask
      rw [getD_map_range _ _ _ _ hj]
      exact decide_eq_true hlt
  · simp [filter_samples]
  · intro r hr
    unfold filter_samples at hr
    rcases List.mem_map.mp hr with ⟨r₀, hr₀, rfl⟩
    calc (selectByMask (sampleMask f c) r₀).length ≤ r₀.length :=
          selectByMask_length_le _ _
      _ = f.colIds.length := hrect r₀ hr₀

/-- Witness for `filter_samples_spec` on a concrete 1x2 frame. -/
theorem filter_samples_spec_witness :
    (filter_samples ⟨["p1"], ["s1", "s2"], [[some 1, none]]⟩ (1/2)).length
      = 1 := by
  have h := filter_samples_spec ⟨["p1"], ["s1", "s2"], [[some 1, none]]⟩ (1/2)
    (by rintro r hr; rcases List.mem_singleton.mp hr with rfl; rfl)
  rw [h.2.2.1]
  rfl

/-- Claim C5 (code evaluation): `filter_samples` returns `out_df.values`, a
bare numeric grid with every row/column identifier stripped, although its
own docstring promises a dataframe.  Two frames with the same data but
different column identifiers are mapped to the same output, so the
retained columns' identifiers are not preserved by the returned value. -/
theorem filter_samples_loses_identifiers :
    (LabeledFrame.mk ["p1"] ["A", "B"] [[some 1, none]]).colIds ≠
      (LabeledFrame.mk ["p1"] ["X", "Y"] [[some 1, none]]).colIds
    ∧ filter_samples (LabeledFrame.mk ["p1"] ["A", "B"] [[some 1, none]])
        (1/2) =
      filter_samples (LabeledFrame.mk ["p1"] ["X", "Y"] [[some 1, none]])
        (1/2)
    ∧ filter_samples (LabeledFrame.mk ["p1"] ["A", "B"] [[some 1, none]])
        (1/2) = [[some 1]] := by
  refine ⟨by decide, rfl, ?_⟩
  have hmask : sampleMask (LabeledFrame.mk ["p1"] ["A", "B"]
      [[some 1, none]]) (1/2) = [true, false] := by
    unfold sampleMask col
    norm_num [List.range_succ, List.count_cons, List.count_nil]
    rw [if_neg (Option.some_ne_none _)]
    norm_num
  unfold filter_samples
  rw [hmask]
  rfl

lemma qmean_replicate (n : ℕ) (d : ℚ) (hn : n ≠ 0) :
    qmean (List.replicate n d) = d := by
  have hn' : (n:ℚ) ≠ 0 := Nat.cast_ne_zero.mpr hn
  unfold qmean
  rw [List.sum_replicate, List.length_replicate, nsmul_eq_mul]
  field_simp

lemma popVar_replicate (n : ℕ) (d : ℚ) : popVar (List.replicate n d) = 0 := by
  cases n with
  | zero => simp [popVar]
  | succ k =>
    unfold popVar
    rw [qmean_replicate _ _ (Nat.succ_ne_zero k), List.map_replicate]
    simp

/-- Claim C4: `remove_sample_outliers` computes
`cutoff = mean(distances) + multiplier * stddev(distances)` (population
standard deviation) and retains exactly the samples whose distance is
strictly below the cutoff: the mask bit of sample `j` is true iff
`distances[j] < mean + multiplier * sqrt(popVar)`, the output consists of
exactly the kept column indices of every row, and for distances
`[1,1,1,1,10]` with multiplier `1` the cutoff is `32/5 = 6.4` and exactly
the distance-10 sample (the fifth column) is removed. -/
theorem remove_sample_outliers_spec :
    (∀ (distances : List ℚ) (mult : ℚ) (j : ℕ), j < distances.length →
      ((outlierMask distances mult).getD j false = true ↔
        ((distances.getD j 0 : ℚ) : ℝ) <
          ((qmean distances : ℚ) : ℝ) +
            (mult : ℝ) * Real.sqrt ((popVar distances : ℚ) : ℝ)))
    ∧ (∀ (df : List (List (Option ℚ))) (distances : List ℚ) (mult : ℚ),
        (∀ r ∈ df, r.length = distances.length) →
        remove_sample_outliers df distances mult = df.map (fun r =>
          (keptIdx (outlierMask distances mult)).map (fun j => r.getD j none)))
    ∧ ((qmean [1,1,1,1,10] : ℚ) : ℝ) +
        1 * Real.sqrt ((popVar [1,1,1,1,10] : ℚ) : ℝ) = 32/5
    ∧ (∀ r : List (Option ℚ), r.length = 5 →
        selectByMask (outlierMask [1,1,1,1,10] 1) r = r.take 4) := by
  have hm : qmean [1,1,1,1,10] = 14/5 := by
    norm_num [qmean, List.sum_cons, List.sum_nil]
  have hv : popVar [1,1,1,1,10] = 324/25 := by
    norm_num [popVar, qmean, List.sum_cons, List.sum_nil]
  refine ⟨?_, ?_, ?_, ?_⟩
  · intro distances mult j hj
    have hjm : j < (distances.map (fun d =>
        ltMeanPlusStd d (qmean distances) (popVar distances) mult)).length := by
      simpa using hj
    unfold outlierMask
    rw [List.getD_eq_getElem _ _ hjm, List.getElem_map,
      List.getD_eq_getElem _ _ hj]
    exact ltMeanPlusStd_iff _ _ _ _ (popVar_nonneg distances)
  · intro df distances mult hrect
    unfold remove_sample_outliers
    apply List.map_congr_left
    intro r hr
    exact selectByMask_eq_keptIdx_map _ r none
      ((hrect r hr).trans (by simp [outlierMask]))
  · rw [hm, hv]
    have hs : Real.sqrt (((324/25 : ℚ) : ℝ)) = 18/5 := by
      have h1 : (((324/25 : ℚ)) : ℝ) = (18/5 : ℝ)^2 := by norm_num
      rw [h1, Real.sqrt_sq (by norm_num : (0:ℝ) ≤ 18/5)]
    rw [hs]
    norm_num
  · intro r hr
    have hmask : outlierMask [1,1,1,1,10] 1 =
        [true, true, true, true, false] := by
      unfold outlierMask
      rw [hm, hv]
      norm_num [ltMeanPlusStd, decide_eq_true_eq, decide_eq_false_iff_not]
    rw [hmask]
    rcases r with _ | ⟨a, r⟩
    · simp at hr
    rcases r with _ | ⟨b, r⟩
    · simp at hr
    rcases r with _ | ⟨c0, r⟩
    · simp at hr
    rcases r with _ | ⟨d0, r⟩
    · simp at hr
    rcases r with _ | ⟨e, r⟩
    · simp at hr
    have hnil : r = [] := by
      simp only [List.length_cons] at hr
      exact List.eq_nil_of_length_eq_zero (by omega)
    subst hnil
    rfl

/-- Witness for `remove_sample_outliers_spec`: the cutoff mask for distances
`[1,1,1,1,10]` with multiplier `1` keeps the first four columns of a
concrete five-column row. -/
theorem remove_sample_outliers_spec_witness :
    selectByMask (outlierMask [1,1,1,1,10] 1)
      ([some 1, some 2, some 3, some 4, some 5] : List (Option ℚ)) =
      [some 1, some 2, some 3, some 4] := by
  have h := remove_sample_outliers_spec.2.2.2
    ([some 1, some 2, some 3, some 4, some 5] : List (Option ℚ)) rfl
  simpa using h

/-- Claim C10: when all distances are equal the population standard
deviation is zero, the cutoff collapses to the common distance, and the
strict comparison removes every sample: every output row is empty. -/
theorem remove_sample_outliers_equal_distances (df : List (List (Option ℚ)))
    (n : ℕ) (d mult : ℚ) (hmult : 0 ≤ mult) :
    remove_sample_outliers df (List.replicate n d) mult =
      df.map (fun _ => []) := by
  unfold remove_sample_outliers
  have hmask : outlierMask (List.replicate n d) mult =
      List.replicate n false := by
    unfold outlierMask
    rw [List.map_replicate, popVar_replicate]
    cases n with
    | zero => rfl
    | succ k =>
      rw [qmean_replicate _ _ (Nat.succ_ne_zero k)]
      have hlt : ltMeanPlusStd d d 0 mult = false := by
        simp only [ltMeanPlusStd, if_pos hmult, sub_self]
        norm_num
      rw [hlt]
  rw [hmask]
  apply List.map_congr_left
  intro r _
  exact selectByMask_replicate_false n r

/-- Witness for `remove_sample_outliers_equal_distances` at a concrete
matrix and the constant distance vector `[2,2,2]`. -/
theorem remove_sample_outliers_equal_distances_witness :
    remove_sample_outliers [[some 1, some 5, none]] (List.replicate 3 2) 1 =
      [[]] := by
  have h := remove_sample_outliers_equal_distances
    [[some 1, some 5, none]] 3 2 1 (by norm_num)
  simpa using h

/-- Claim C2 counterexample: two minimizers that agree on the minimizing
argument and objective value but differ on convergence produce IDENTICAL
return values of `optimize_sample_balance`, while their non-converged
sample sets differ — so the return value is only the pair (offset matrix,
distances) and cannot contain the set of non-converged sample identifiers
the claim says is returned. -/
theorem optimize_sample_balance_returns_pair :
    optimize_sample_balance minimizerConverged [[some 1]] (-7, 7) =
      optimize_sample_balance minimizerDiverged [[some 1]] (-7, 7)
    ∧ non_converged_samples minimizerConverged [[some 1]] (-7, 7) = []
    ∧ non_converged_samples minimizerDiverged [[some 1]] (-7, 7) = [0]
    ∧ ([] : List ℕ) ≠ [0] :=
  ⟨rfl, rfl, rfl, by decide⟩

/-- Claim C2 (amended): `optimize_sample_balance` returns two things — the
offset-adjusted matrix and the distance vector with one entry per sample;
the convergence flags never influence the returned value (non-convergence
never aborts the run: the result is the same whatever the flags say), and
the non-converged identifiers are only printed, not returned. -/
theorem optimize_sample_balance_spec (m₁ m₂ : Minimizer)
    (df : List (List (Option ℚ))) (b : ℚ × ℚ)
    (h : ∀ (g : ℚ → Option ℚ) (bounds : ℚ × ℚ),
      (m₁ g bounds).x = (m₂ g bounds).x ∧ (m₁ g bounds).f = (m₂ g bounds).f) :
    optimize_sample_balance m₁ df b = optimize_sample_balance m₂ df b
    ∧ (optimize_sample_balance m₁ df b).2.length = ncols df
    ∧ (optimize_sample_balance m₁ df b).1.length = df.length := by
  have hx : (sample_results m₁ df b).map OptimizeResult.x =
      (sample_results m₂ df b).map OptimizeResult.x := by
    unfold sample_results
    rw [List.map_map, List.map_map]
    apply List.map_congr_left
    intro j _
    exact (h _ _).1
  have hf : (sample_results m₁ df b).map OptimizeResult.f =
      (sample_results m₂ df b).map OptimizeResult.f := by
    unfold sample_results
    rw [List.map_map, List.map_map]
    apply List.map_congr_left
    intro j _
    exact (h _ _).2
  refine ⟨?_, ?_, ?_⟩
  · unfold optimize_sample_balance
    rw [hx, hf]
  · simp [optimize_sample_balance, sample_results]
  · simp [optimize_sample_balance]

/-- Witness for `optimize_sample_balance_spec` at two concrete minimizers
(differing only in the convergence flag) and a concrete matrix. -/
theorem optimize_sample_balance_spec_witness :
    optimize_sample_balance minimizerConverged [[some 2]] (-7, 7) =
      optimize_sample_balance minimizerDiverged [[some 2]] (-7, 7)
    ∧ (optimize_sample_balance minimizerConverged [[some 2]] (-7, 7)).2.length
        = ncols [[some 2]]
    ∧ (optimize_sample_balance minimizerConverged [[some 2]] (-7, 7)).1.length
        = ([[some 2]] : List (List (Option ℚ))).length :=
  optimize_sample_balance_spec minimizerConverged minimizerDiverged
    [[some 2]] (-7, 7) (fun _ _ => ⟨rfl, rfl⟩)

/-- Claim C9 (code evaluation): on a concrete dataset the report's columns
are exactly `plate_name`, `well_name`, `medium_over_heavy_mad` and
`medium_over_heavy_median` — the per-sample mean and standard deviation of
the row-normalized values are computed by `main` (qc_gct2pw.py lines 74 and
76) but never passed to `assemble_output_df` (lines 79-82), so the summary
record does not contain them. -/
theorem qc_pw_output_headers :
    qc_pw_headers [[some 1, some 2]] ["plateA", "plateA"] ["A01", "A02"] =
      ["plate_name", "well_name", "medium_over_heavy_mad",
       "medium_over_heavy_median"]
    ∧ "medium_over_heavy_mean" ∉
        qc_pw_headers [[some 1, some 2]] ["plateA", "plateA"] ["A01", "A02"]
    ∧ "medium_over_heavy_sd" ∉
        qc_pw_headers [[some 1, some 2]] ["plateA", "plateA"] ["A01", "A02"] := by
  have hle : ¬ ("medium_over_heavy_median" ≤ "medium_over_heavy_mad") := by
    simp
    decide
  have hmain : qc_pw_headers [[some 1, some 2]] ["plateA", "plateA"]
      ["A01", "A02"] =
      ["plate_name", "well_name", "medium_over_heavy_mad",
       "medium_over_heavy_median"] := by
    unfold qc_pw_headers qc_pw_output assemble_output_df
    simp only [sortByKey, List.foldr_cons, List.foldr_nil, insertByKey]
    rw [if_neg hle]
    rw [if_pos]
    · simp
    · constructor
      · rfl
      · intro p hp
        rcases List.mem_cons.mp hp with rfl | hp2
        · simp [ncols]
        · rcases List.mem_cons.mp hp2 with rfl | hp3
          · simp [ncols]
          · simp at hp3
  refine ⟨hmain, ?_, ?_⟩ <;> rw [hmain] <;> decide
